import Mathlib

/-!
Shallow embedding of the LogVision log engine: line parsing with carried
timestamps, level classification, filter visibility, filter match counts,
time bucketing and adaptive bucket-width selection, transcribed from the
TypeScript sources.
-/

namespace LogVision

/-! ### Character classes (JS regex classes over code points) -/

def isDigitC (c : Char) : Bool := 48 ≤ c.toNat && c.toNat ≤ 57

def isAlphaC (c : Char) : Bool :=
  (65 ≤ c.toNat && c.toNat ≤ 90) || (97 ≤ c.toNat && c.toNat ≤ 122)

def isUpperC (c : Char) : Bool := 65 ≤ c.toNat && c.toNat ≤ 90

/-- JS `\s`: whitespace code points. -/
def isJsWsC (c : Char) : Bool :=
  let n := c.toNat
  (9 ≤ n && n ≤ 13) || n == 32 || n == 160 || n == 5760 ||
    (8192 ≤ n && n ≤ 8202) || n == 8232 || n == 8233 || n == 8239 ||
    n == 8287 || n == 12288 || n == 65279

/-- JS `.` (without the s flag): any char except line terminators. -/
def isDotC (c : Char) : Bool :=
  let n := c.toNat
  !(n == 10 || n == 13 || n == 8232 || n == 8233)

def toUpperC (c : Char) : Char :=
  if 97 ≤ c.toNat && c.toNat ≤ 122 then Char.ofNat (c.toNat - 32) else c

def toLowerC (c : Char) : Char :=
  if 65 ≤ c.toNat && c.toNat ≤ 90 then Char.ofNat (c.toNat + 32) else c

def chEq (c : Char) : Char → Bool := fun d => d == c

/-! ### Basic matching combinators -/

/-- Consume a fixed-width sequence of character classes; return the rest. -/
def matchShape : List (Char → Bool) → List Char → Option (List Char)
  | [], l => some l
  | _ :: _, [] => none
  | p :: ps, c :: r => if p c then matchShape ps r else none

/-- Existence semantics of `p+` followed by continuation `k` (one `p` char
already consumed by `afterPlus`). -/
def plusCont (p : Char → Bool) (k : List Char → Bool) : List Char → Bool
  | [] => k []
  | c :: r => k (c :: r) || (p c && plusCont p k r)

/-- Existence semantics of `p+` then `k`. -/
def afterPlus (p : Char → Bool) (k : List Char → Bool) : List Char → Bool
  | [] => false
  | c :: r => p c && plusCont p k r

/-- Head char matches `.` (existence semantics of a trailing dot-plus group). -/
def headDot : List Char → Bool
  | [] => false
  | c :: _ => isDotC c

/-- Maximal alphabetic prefix and the remainder. -/
def alphaSplit : List Char → List Char × List Char
  | [] => ([], [])
  | c :: r => if isAlphaC c then
      let (a, b) := alphaSplit r
      (c :: a, b)
    else ([], c :: r)

/-! ### The four timestamp matchers of `parseLogLine` (src/unnamed/part_007) -/

/-- Shape of `\d{2}-[A-Za-z]{3}-\d{4}\s\d{2}:\d{2}:\d{2}\.\d{3}` (24 chars). -/
def millisShape : List (Char → Bool) :=
  [isDigitC, isDigitC, chEq '-', isAlphaC, isAlphaC, isAlphaC, chEq '-',
   isDigitC, isDigitC, isDigitC, isDigitC, isJsWsC,
   isDigitC, isDigitC, chEq ':', isDigitC, isDigitC, chEq ':', isDigitC, isDigitC,
   chEq '.', isDigitC, isDigitC, isDigitC]

/-- Anchored regex `/^(\d{2}-[A-Za-z]{3}-\d{4}\s\d{2}:\d{2}:\d{2}\.\d{3})\s+(.+)/`:
returns capture group 1. -/
def timestampWithMillisMatch (l : List Char) : Option (List Char) :=
  match matchShape millisShape l with
  | some rest => if afterPlus isJsWsC headDot rest then some (l.take 24) else none
  | none => none

/-- Shape of `\d{4}-\d{2}-\d{2}\s\d{2}:\d{2}:\d{2}` (19 chars). -/
def stdDateShape : List (Char → Bool) :=
  [isDigitC, isDigitC, isDigitC, isDigitC, chEq '-', isDigitC, isDigitC, chEq '-',
   isDigitC, isDigitC, isJsWsC,
   isDigitC, isDigitC, chEq ':', isDigitC, isDigitC, chEq ':', isDigitC, isDigitC]

/-- Existence of `(.+?)\]` then continuation `k` (first dot char consumed by
`dotPlusRBrack`). -/
def seekRBrack (k : List Char → Bool) : List Char → Bool
  | [] => false
  | c :: r => (c == ']' && k r) || (isDotC c && seekRBrack k r)

def dotPlusRBrack (k : List Char → Bool) : List Char → Bool
  | [] => false
  | c :: r => isDotC c && seekRBrack k r

/-- Tail of the standard-log regex: `\s+([A-Z]+)\s+\[(.+?)\]\s+(.+)`. -/
def stdTail : List Char → Bool :=
  afterPlus isJsWsC (afterPlus isUpperC (afterPlus isJsWsC (fun l =>
    match l with
    | '[' :: r => dotPlusRBrack (afterPlus isJsWsC headDot) r
    | _ => false)))

/-- Anchored regex `/^(\d{4}-\d{2}-\d{2}\s\d{2}:\d{2}:\d{2})\s+([A-Z]+)\s+\[(.+?)\]\s+(.+)/`:
returns capture group 1. -/
def standardLogMatch (l : List Char) : Option (List Char) :=
  match matchShape stdDateShape l with
  | some rest => if stdTail rest then some (l.take 19) else none
  | none => none

/-- Shape of `\d{4}:\d{2}:\d{2}:\d{2}` (13 chars). -/
def apacheTimeShape : List (Char → Bool) :=
  [isDigitC, isDigitC, isDigitC, isDigitC, chEq ':', isDigitC, isDigitC,
   chEq ':', isDigitC, isDigitC, chEq ':', isDigitC, isDigitC]

/-- Whitespace star then a closing bracket (existence). -/
def wsStarRBrack : List Char → Bool
  | [] => false
  | c :: r => c == ']' || (isJsWsC c && wsStarRBrack r)

/-- Try the Apache pattern with the `[` at the head of `l`. -/
def apacheAt (l : List Char) : Option (List Char) :=
  match l with
  | '[' :: r =>
    match matchShape [isDigitC, isDigitC, chEq '/'] r with
    | some r2 =>
      let (run, r3) := alphaSplit r2
      if run.isEmpty then none
      else
        match r3 with
        | '/' :: r4 =>
          match matchShape apacheTimeShape r4 with
          | some r5 =>
            if wsStarRBrack r5 then some (r.take (3 + run.length + 1 + 13)) else none
          | none => none
        | _ => none
    | none => none
  | _ => none

/-- Apache regex `/\[(\d{2}\/[A-Za-z]+\/\d{4}:\d{2}:\d{2}:\d{2})\s*]/i`: leftmost
search, returns capture group 1. -/
def apacheMatch : List Char → Option (List Char)
  | [] => none
  | l@(_ :: r) =>
    match apacheAt l with
    | some ts => some ts
    | none => apacheMatch r

/-- Pattern `:\d{2}:\d{2}`: number of chars consumed. -/
def timeTail : List Char → Option Nat
  | ':' :: a :: b :: ':' :: c :: d :: _ =>
    if isDigitC a && isDigitC b && isDigitC c && isDigitC d then some 6 else none
  | _ => none

/-- Pattern `\d{1,2}:\d{2}:\d{2}` with greedy backtracking: chars consumed. -/
def timePart : List Char → Option Nat
  | [] => none
  | a :: rest =>
    if isDigitC a then
      match rest with
      | b :: r2 =>
        if isDigitC b then
          match timeTail r2 with
          | some n => some (2 + n)
          | none =>
            match timeTail rest with
            | some n => some (1 + n)
            | none => none
        else
          match timeTail rest with
          | some n => some (1 + n)
          | none => none
      | [] => none
    else none

/-- Optional group `(?:\.\d{3})?`: chars consumed (0 or 4). -/
def optMillisLen (l : List Char) : Nat :=
  match l with
  | '.' :: a :: b :: c :: _ => if isDigitC a && isDigitC b && isDigitC c then 4 else 0
  | _ => 0

/-- Optional group `(?:[Z])?`: chars consumed (0 or 1). -/
def optZLen : List Char → Nat
  | 'Z' :: _ => 1
  | _ => 0

def dateShape10 : List (Char → Bool) :=
  [isDigitC, isDigitC, isDigitC, isDigitC, chEq '-', isDigitC, isDigitC, chEq '-',
   isDigitC, isDigitC]

/-- Alternative 1 of the generic regex:
`\d{4}-\d{2}-\d{2}(?:[T\s])\d{1,2}:\d{2}:\d{2}(?:\.\d{3})?(?:[Z])?`:
length of the match at the head of `l`. -/
def genAlt1 (l : List Char) : Option Nat :=
  match matchShape dateShape10 l with
  | some r =>
    match r with
    | s :: r2 =>
      if s == 'T' || isJsWsC s then
        match timePart r2 with
        | some tp =>
          let base := 11 + tp
          let r3 := l.drop base
          let m := optMillisLen r3
          some (base + m + optZLen (r3.drop m))
        | none => none
      else none
    | [] => none
  | none => none

def sepDashSlash (c : Char) : Bool := c == '-' || c == '/'

/-- The dash-or-slash class, then `\d{4}(?:\s|:)\d{1,2}:\d{2}:\d{2}` and an
optional `\.\d{3}`, starting at `l`; `pre` chars were consumed before `l`. -/
def genAlt2Rest (l : List Char) (pre : Nat) : Option Nat :=
  match l with
  | s :: r =>
    if sepDashSlash s then
      match matchShape [isDigitC, isDigitC, isDigitC, isDigitC] r with
      | some r2 =>
        match r2 with
        | t :: r3 =>
          if isJsWsC t || t == ':' then
            match timePart r3 with
            | some tp => some (pre + 1 + 4 + 1 + tp + optMillisLen (r3.drop tp))
            | none => none
          else none
        | [] => none
      | none => none
    else none
  | [] => none

/-- Alternative 2 of the generic regex: `\d{2}`, dash-or-slash, an alpha run
or `\d{2}`, dash-or-slash, `\d{4}(?:\s|:)\d{1,2}:\d{2}:\d{2}(?:\.\d{3})?`. -/
def genAlt2 (l : List Char) : Option Nat :=
  match matchShape [isDigitC, isDigitC, sepDashSlash] l with
  | some r =>
    let (run, r2) := alphaSplit r
    if run.isEmpty then
      match r with
      | a :: b :: r3 => if isDigitC a && isDigitC b then genAlt2Rest r3 (3 + 2) else none
      | _ => none
    else genAlt2Rest r2 (3 + run.length)
  | none => none

/-- Alternative 3: `\d{4}\/\d{2}\/\d{2}\s\d{1,2}:\d{2}:\d{2}(?:\.\d{3})?`. -/
def genAlt3 (l : List Char) : Option Nat :=
  match matchShape
      [isDigitC, isDigitC, isDigitC, isDigitC, chEq '/', isDigitC, isDigitC,
       chEq '/', isDigitC, isDigitC] l with
  | some r =>
    match r with
    | s :: r2 =>
      if isJsWsC s then
        match timePart r2 with
        | some tp => some (11 + tp + optMillisLen (r2.drop tp))
        | none => none
      else none
    | [] => none
  | none => none

/-- The three alternatives, tried in source order at one position. -/
def genAltAt (l : List Char) : Option Nat :=
  match genAlt1 l with
  | some n => some n
  | none =>
    match genAlt2 l with
    | some n => some n
    | none => genAlt3 l

/-- The generic `timestampRegex`: leftmost search, returns capture group 1
(which spans the whole match). -/
def genericTimestampMatch : List Char → Option (List Char)
  | [] => none
  | l@(_ :: r) =>
    match genAltAt l with
    | some n => some (l.take n)
    | none => genericTimestampMatch r

/-! ### `parseLogLine` (src/unnamed/part_007, lines 92-169) -/

/-- Result of one timestamp-extraction cascade over a line, in the source's
order: millisecond form, standard `date time LEVEL [thread]` form, Apache
bracket form, generic fallback. -/
def lineTimestamp (line : String) : Option String :=
  match timestampWithMillisMatch line.data with
  | some ts => some (String.mk ts)
  | none =>
    match standardLogMatch line.data with
    | some ts => some (String.mk ts)
    | none =>
      match apacheMatch line.data with
      | some ts => some (String.mk ts)
      | none =>
        match genericTimestampMatch line.data with
        | some ts => some (String.mk ts)
        | none => none

/-- A JS argument to `parseLogLine`: `undefined`, `null`, or a string. -/
inductive LineInput
  | undefIn
  | nullv
  | str (s : String)
deriving DecidableEq, Repr

structure ParsedLogLine where
  timestamp : String
  message : String
deriving DecidableEq, Repr

/-- The source's `parseLogLine`, with the module-level `lastValidTimestamp` an explicit
state argument: returns the parsed line and the new state. `undefined` resets
the state to the sentinel `"-"`. -/
def parseLogLine : LineInput → String → ParsedLogLine × String
  | .undefIn, _ => ({ timestamp := "-", message := "" }, "-")
  | .nullv, st => ({ timestamp := st, message := "" }, st)
  | .str line, st =>
    if line.data.all isJsWsC then ({ timestamp := st, message := line }, st)
    else
      match lineTimestamp line with
      | some ts => ({ timestamp := ts, message := line }, ts)
      | none => ({ timestamp := st, message := line }, st)

/-- Thread the shared state through a sequence of `parseLogLine` calls. -/
def runParse : List LineInput → String → List ParsedLogLine × String
  | [], st => ([], st)
  | l :: ls, st =>
    let (p, st') := parseLogLine l st
    let (ps, st'') := runParse ls st'
    (p :: ps, st'')

/-- Tag for one of two concurrently ingested files. -/
inductive FileTag
  | fileA
  | fileB
deriving DecidableEq, Repr

/-- Thread the single shared `lastValidTimestamp` through an interleaved
sequence of `parseLogLine` calls coming from two files. -/
def runTagged : List (FileTag × LineInput) → String → List (FileTag × ParsedLogLine) × String
  | [], st => ([], st)
  | (t, l) :: ls, st =>
    let (p, st') := parseLogLine l st
    let (ps, st'') := runTagged ls st'
    ((t, p) :: ps, st'')

/-- Results belonging to one file, in order. -/
def projSeq (t : FileTag) (xs : List (FileTag × ParsedLogLine)) : List ParsedLogLine :=
  xs.filterMap (fun p => if p.1 = t then some p.2 else none)

/-! ### `parseTimestamp` (src/unnamed/part_007, lines 171-204)

The date-library calls (`parseISO`, `parse` with a format string, the `Date`
constructor, `getFullYear`) are external primitives; they are abstracted as a
`DateLib` record, with `Option` covering both `isValid` failure and thrown
exceptions. Instants are epoch milliseconds. -/

structure DateLib where
  parseISO : String → Option Int
  parseFmt : String → String → Option Int
  newDate : String → Option Int
  yearOf : Int → Int

def DATE_FORMATS : List String :=
  ["yyyy-MM-dd HH:mm:ss",
   "dd-MMM-yyyy HH:mm:ss.SSS",
   "dd-MMM-yyyy HH:mm:ss",
   "dd/MMM/yyyy:HH:mm:ss",
   "yyyy-MM-dd'T'HH:mm:ss.SSSX",
   "yyyy-MM-dd'T'HH:mm:ssX",
   "MM/dd/yyyy HH:mm:ss",
   "dd/MM/yyyy HH:mm:ss",
   "yyyy.MM.dd HH:mm:ss",
   "yyyy/MM/dd HH:mm:ss"]

def tryParseDate (dl : DateLib) (timestamp fmt : String) : Option Int :=
  dl.parseFmt fmt timestamp

/-- Anchored `^\d{4}-\d{2}-\d{2}\s\d{2}:\d{2}:\d{2}$`. -/
def strictTsShape (ts : String) : Bool :=
  match matchShape stdDateShape ts.data with
  | some rest => rest.isEmpty
  | none => false

/-- JS `replace(" ", "T")`: first occurrence only. -/
def replaceFirstSpaceT : List Char → List Char
  | [] => []
  | c :: r => if c == ' ' then 'T' :: r else c :: replaceFirstSpaceT r

def parseTimestamp (dl : DateLib) (timestamp : String) : Option Int :=
  if timestamp = "-" then none
  else
    match dl.parseISO timestamp with
    | some d => some d
    | none =>
      match DATE_FORMATS.findSome? (fun fmt => tryParseDate dl timestamp fmt) with
      | some d => some d
      | none =>
        match (if strictTsShape timestamp then
                dl.newDate (String.mk (replaceFirstSpaceT timestamp.data))
              else none) with
        | some d => some d
        | none =>
          match dl.newDate timestamp with
          | some d => if dl.yearOf d > 2000 then some d else none
          | none => none

/-! ### Level classification (src/src/components/log-viewer/LogStats.tsx) -/

/-- The level alternation, uppercase, in source order. -/
def LEVEL_TOKENS : List (List Char) :=
  ["TRACE".data, "DEBUG".data, "INFO".data, "NOTICE".data, "WARN".data,
   "WARNING".data, "ERROR".data, "SEVERE".data, "CRITICAL".data, "FATAL".data,
   "ALERT".data, "EMERG".data, "EMERGENCY".data]

/-- Case-insensitive literal token at the head: returns the matched source
chars and the remainder. -/
def ciTokenSplit : List Char → List Char → Option (List Char × List Char)
  | [], l => some ([], l)
  | _ :: _, [] => none
  | t :: ts, c :: r =>
    if toUpperC c == t then
      match ciTokenSplit ts r with
      | some (cap, rest) => some (c :: cap, rest)
      | none => none
    else none

/-- Try each token of the alternation in order at one position; `after` guards
the char following the token. -/
def tokenAlt (after : List Char → Bool) : List (List Char) → List Char → Option (List Char)
  | [], _ => none
  | t :: ts, l =>
    match ciTokenSplit t l with
    | some (cap, rest) => if after rest then some cap else tokenAlt after ts l
    | none => tokenAlt after ts l

def headIs (c : Char) : List Char → Bool
  | [] => false
  | d :: _ => d == c

def headWs : List Char → Bool
  | [] => false
  | d :: _ => isJsWsC d

/-- Leftmost search for the bracketed form: the token alternation between
`[` and `]`, case-insensitive. -/
def bracketLevelMatch : List Char → Option (List Char)
  | [] => none
  | '[' :: r =>
    match tokenAlt (headIs ']') LEVEL_TOKENS r with
    | some cap => some cap
    | none => bracketLevelMatch r
  | _ :: r => bracketLevelMatch r

/-- Leftmost search for the space-delimited form: whitespace, token,
whitespace. -/
def spacedLevelMatch : List Char → Option (List Char)
  | [] => none
  | c :: r =>
    if isJsWsC c then
      match tokenAlt headWs LEVEL_TOKENS r with
      | some cap => some cap
      | none => spacedLevelMatch r
    else spacedLevelMatch r

/-- Anchored leading form: token then whitespace. -/
def leadingLevelMatch (l : List Char) : Option (List Char) :=
  tokenAlt headWs LEVEL_TOKENS l

/-- The level extraction of `LogStats`: bracketed form, then space-delimited,
then leading; the captured token is uppercased and the synonyms WARNING and
EMERGENCY are normalized; no match gives OTHER. -/
def classifyLevel (message : String) : String :=
  match
    (match bracketLevelMatch message.data with
     | some cap => some cap
     | none =>
       match spacedLevelMatch message.data with
       | some cap => some cap
       | none => leadingLevelMatch message.data) with
  | some cap =>
    let u := String.mk (cap.map toUpperC)
    if u = "WARNING" then "WARN" else if u = "EMERGENCY" then "EMERG" else u
  | none => "OTHER"

/-! ### Filter evaluation (src/src/components/home.tsx, lines 244-324)

The JS regex engine is abstracted as a compilation primitive
`re : String → Option (String → Bool)`; `none` models a pattern on which the
`RegExp` constructor throws. -/

structure FilterItem where
  id : Nat
  term : String
  isRegex : Bool
  type : String
deriving DecidableEq, Repr

def RegexEngine : Type := String → Option (String → Bool)

/-- Case-insensitive substring containment of plain filters and the
try/catch-guarded regex test, as in the filter closure. -/
def charsPrefix : List Char → List Char → Bool
  | [], _ => true
  | _ :: _, [] => false
  | c :: cs, d :: ds => c == d && charsPrefix cs ds

def charsIncludes (sub : List Char) : List Char → Bool
  | [] => charsPrefix sub []
  | l@(_ :: r) => charsPrefix sub l || charsIncludes sub r

def lowerStr (s : String) : String := String.mk (s.data.map toLowerC)

def upperStr (s : String) : String := String.mk (s.data.map toUpperC)

def matchesFilterTerm (re : RegexEngine) (f : FilterItem) (message : String) : Bool :=
  if f.isRegex then
    match re f.term with
    | some test => test message
    | none => false
  else charsIncludes (lowerStr f.term).data (lowerStr message).data

/-- The time-range gate at the top of the visibility closure. -/
def timeRangeOk (dl : DateLib) (tr : Option (Option Int × Option Int))
    (entry : ParsedLogLine) : Bool :=
  match tr with
  | none => true
  | some (sd, ed) =>
    if sd.isSome || ed.isSome then
      match parseTimestamp dl entry.timestamp with
      | some d =>
        if (match sd with | some s => decide (d < s) | none => false) then false
        else if (match ed with | some e => decide (e < d) | none => false) then false
        else true
      | none => true
    else true

/-- The visibility predicate of `processedEntries.filter`: time range first,
then OR'd exclude filters, then include filters under the AND/OR combinator. -/
def entryVisible (dl : DateLib) (re : RegexEngine)
    (tr : Option (Option Int × Option Int)) (filters : List FilterItem)
    (filterLogic : String) (entry : ParsedLogLine) : Bool :=
  if !timeRangeOk dl tr entry then false
  else
    let excludeFilters := filters.filter (fun f => f.type == "exclude")
    let includeFilters := filters.filter (fun f => f.type == "include")
    if excludeFilters.length > 0 &&
        excludeFilters.any (fun f => matchesFilterTerm re f entry.message) then false
    else if includeFilters.length > 0 then
      if filterLogic == "AND" then
        includeFilters.all (fun f => matchesFilterTerm re f entry.message)
      else includeFilters.any (fun f => matchesFilterTerm re f entry.message)
    else true

/-! ### `getFilterStats` (src/src/components/log-viewer/ActiveFilters.tsx) -/

/-- The level-token list of `ActiveFilters` (the `LogStats` alternation plus
OTHER). -/
def AF_LEVEL_TERMS : List String :=
  ["TRACE", "DEBUG", "INFO", "NOTICE", "WARN", "WARNING", "ERROR", "SEVERE",
   "CRITICAL", "FATAL", "ALERT", "EMERG", "EMERGENCY", "OTHER"]

/-- The delimited level matching used for level-term filters. -/
def levelTermMatch (message term : String) : Bool :=
  let um := (upperStr message).data
  let ut := (upperStr term).data
  charsIncludes ('[' :: ut ++ [']']) um ||
    charsIncludes (' ' :: ut ++ [' ']) um ||
    charsPrefix (ut ++ [' ']) um

/-- One entry's match test inside `getFilterStats`; the entry's message is
obtained through `parseLogLine` (whose state the component shares). -/
def filterStatMatches (re : RegexEngine) (f : FilterItem) (st entry : String) : Bool :=
  let message := (parseLogLine (.str entry) st).1.message
  if !f.isRegex && AF_LEVEL_TERMS.contains (upperStr f.term) then
    levelTermMatch message f.term
  else if f.isRegex then
    match re f.term with
    | some test => test message
    | none => false
  else charsIncludes (lowerStr f.term).data (lowerStr message).data

def getFilterStats (re : RegexEngine) (f : FilterItem) (st : String)
    (entries : List String) : Nat :=
  if entries.length = 0 then 0
  else (entries.filter (fun entry => filterStatMatches re f st entry)).length

/-- The match count the spec describes: the exact number of entries whose
message contains the filter's pattern as a case-insensitive substring. -/
def specMatchCount (f : FilterItem) (entries : List String) : Nat :=
  (entries.filter (fun entry =>
    charsIncludes (lowerStr f.term).data (lowerStr entry).data)).length

/-! ### Ingestion failure handling (src/src/components/home.tsx, lines 631-637) -/

/-- Outcome of the `try` block that reads and assembles a file's lines: either
the assembled lines, or an I/O failure with whatever lines had been produced
inside the block before it threw. -/
inductive ReadOutcome
  | ok (lines : List String)
  | ioError (producedLines : List String)
deriving DecidableEq, Repr

def ingestErrorLine (name : String) : String :=
  "[ERROR] Failed to process file: " ++ name ++ ". File may be too large or corrupted."

/-- The catch block assigns a fresh single-element array to `lines`; the lines
produced before the failure are not referenced. -/
def processFileContent : ReadOutcome → String → List String
  | .ok lines, _ => lines
  | .ioError _, name => [ingestErrorLine name]

/-! ### Time buckets (src/unnamed/part_002, TimeSeriesChart) -/

/-- Bucket store: association list from bucket-start epoch ms to per-level
counts, in JS-object insertion order. -/
def TSBuckets : Type := List (Int × List (String × Nat))

def assocFind : TSBuckets → Int → Option (List (String × Nat))
  | [], _ => none
  | (k', v) :: r, k => if k' = k then some v else assocFind r k

def levelCount (cs : List (String × Nat)) (lvl : String) : Nat :=
  match cs with
  | [] => 0
  | (l, n) :: r => if l = lvl then n else levelCount r lvl

def bumpLevel (cs : List (String × Nat)) (lvl : String) : List (String × Nat) :=
  match cs with
  | [] => [(lvl, 1)]
  | (l, n) :: r => if l = lvl then (l, n + 1) :: r else (l, n) :: bumpLevel r lvl

/-- JS tally `buckets[key][level] = (buckets[key][level] || 0) + 1`, creating the
bucket object if absent. -/
def updateB : TSBuckets → Int → String → TSBuckets
  | [], k, lvl => [(k, [(lvl, 1)])]
  | (k', v) :: r, k, lvl =>
    if k' = k then (k', bumpLevel v lvl) :: r else (k', v) :: updateB r k lvl

/-- The `while (currentTime <= paddedEnd)` initialization loop. -/
def bucketLoop (w cur stop : Int) : List Int :=
  if _h : 0 < w ∧ cur ≤ stop then cur :: bucketLoop w (cur + w) stop else []
termination_by (stop + 1 - cur).toNat
decreasing_by
  omega

/-- All buckets from `floor(paddedStart / w) * w` to `paddedEnd`, each with an
empty count object. -/
def initBuckets (w start stop : Int) : TSBuckets :=
  (bucketLoop w (((start - w).fdiv w) * w) (stop + w)).map (fun b => (b, []))

/-- The chart aggregation: materialize all buckets over the padded range, then
tally `dataToUse` (filtered to the selected range when zooming) into
epoch-aligned buckets. -/
def timeSeriesBuckets (w start stop : Int) (data : List (Int × String))
    (zoom : Bool) : TSBuckets :=
  let dataToUse := if zoom then
      data.filter (fun p => decide (start ≤ p.1) && decide (p.1 ≤ stop))
    else data
  dataToUse.foldl (fun bks p => updateB bks ((p.1.fdiv w) * w) p.2)
    (initBuckets w start stop)

/-! ### Adaptive bucket-width selection -/

/-- The ingestion-time bucket-size calculation of `processFiles`
(src/src/components/home.tsx, lines 711-743). -/
def homeBucketSize (diffMs : ℚ) : String :=
  let diffMinutes := diffMs / (1000 * 60)
  if diffMinutes ≤ 1 then "5s"
  else if diffMinutes ≤ 60 then "30s"
  else
    let idealBucketSizeMinutes : ℚ := max 1 ((⌈diffMinutes / 120⌉ : ℤ) : ℚ)
    if idealBucketSizeMinutes ≤ 0.08 then "5s"
    else if idealBucketSizeMinutes ≤ 0.17 then "10s"
    else if idealBucketSizeMinutes ≤ 0.5 then "30s"
    else if idealBucketSizeMinutes ≤ 1 then "1m"
    else if idealBucketSizeMinutes ≤ 5 then "5m"
    else if idealBucketSizeMinutes ≤ 10 then "10m"
    else if idealBucketSizeMinutes ≤ 30 then "30m"
    else if idealBucketSizeMinutes ≤ 60 then "60m"
    else if idealBucketSizeMinutes ≤ 360 then "360m"
    else if idealBucketSizeMinutes ≤ 720 then "720m"
    else if idealBucketSizeMinutes ≤ 1440 then "1440m"
    else "10080m"

/-- The chart component's `calculateOptimalBucketSize` (src/unnamed/part_002, lines 509-539). -/
def calculateOptimalBucketSize (diffMs : ℚ) : String :=
  let diffMinutes := diffMs / (1000 * 60)
  if diffMinutes ≤ 60 then "30s"
  else
    let idealBucketSizeMinutes : ℚ := max 1 ((⌈diffMinutes / 120⌉ : ℤ) : ℚ)
    if idealBucketSizeMinutes ≤ 0.08 then "5s"
    else if idealBucketSizeMinutes ≤ 0.17 then "10s"
    else if idealBucketSizeMinutes ≤ 0.5 then "30s"
    else if idealBucketSizeMinutes ≤ 1 then "1m"
    else if idealBucketSizeMinutes ≤ 5 then "5m"
    else if idealBucketSizeMinutes ≤ 10 then "10m"
    else if idealBucketSizeMinutes ≤ 30 then "30m"
    else if idealBucketSizeMinutes ≤ 60 then "60m"
    else if idealBucketSizeMinutes ≤ 360 then "360m"
    else if idealBucketSizeMinutes ≤ 720 then "720m"
    else if idealBucketSizeMinutes ≤ 1440 then "1440m"
    else "10080m"

/-- The ladder snap the spec's words describe: the smallest ladder value at
least `x` minutes, capped at the largest rung. -/
def specSnapLadder (x : ℚ) : String :=
  if x ≤ 1 / 12 then "5s"
  else if x ≤ 1 / 6 then "10s"
  else if x ≤ 1 / 2 then "30s"
  else if x ≤ 1 then "1m"
  else if x ≤ 5 then "5m"
  else if x ≤ 10 then "10m"
  else if x ≤ 30 then "30m"
  else if x ≤ 60 then "60m"
  else if x ≤ 360 then "360m"
  else if x ≤ 720 then "720m"
  else if x ≤ 1440 then "1440m"
  else "10080m"

/-! ### Interpreting timestamps for the carry-forward invariant -/

def digitVal (c : Char) : Nat := c.toNat - 48

/-- Numeric key of a strict `yyyy-MM-dd HH:mm:ss` timestamp; chronological
order on such timestamps is the order of keys. -/
def strictTsKey (ts : String) : Option Nat :=
  if strictTsShape ts then
    match ts.data with
    | [y1, y2, y3, y4, _, m1, m2, _, d1, d2, _, h1, h2, _, n1, n2, _, s1, s2] =>
      some ((((((digitVal y1 * 10 + digitVal y2) * 10 + digitVal y3) * 10 +
        digitVal y4) * 100 + (digitVal m1 * 10 + digitVal m2)) * 100 +
        (digitVal d1 * 10 + digitVal d2)) * 1000000 +
        (digitVal h1 * 10 + digitVal h2) * 10000 +
        (digitVal n1 * 10 + digitVal n2) * 100 + (digitVal s1 * 10 + digitVal s2))
    | _ => none
  else none

/-- True when `a` denotes a strictly earlier instant than `b` (both in the strict
`yyyy-MM-dd HH:mm:ss` form). -/
def tsOlder (a b : String) : Bool :=
  match strictTsKey a, strictTsKey b with
  | some x, some y => decide (x < y)
  | _, _ => false

/-- The timestamp a nonempty line contributes to the carried state, if any. -/
def lineParsedTs (s : String) : Option String :=
  if s.data.all isJsWsC then none else lineTimestamp s

/-- All timestamps parsed from their own lines during a run, in order. -/
def runMatched (ls : List String) : List String := ls.filterMap lineParsedTs

/-! ## Helper lemmas -/

theorem parseLogLine_str_eq (s st : String) :
    parseLogLine (.str s) st =
      match lineParsedTs s with
      | some t => ({ timestamp := t, message := s }, t)
      | none => ({ timestamp := st, message := s }, st) := by
  simp only [parseLogLine, lineParsedTs]
  by_cases hw : s.data.all isJsWsC
  · simp [hw]
  · simp only [hw, Bool.false_eq_true, if_false]

theorem parseLogLine_str_message (s st : String) :
    (parseLogLine (.str s) st).1.message = s := by
  rw [parseLogLine_str_eq]
  cases lineParsedTs s <;> rfl

theorem parseTimestamp_sentinel (dl : DateLib) : parseTimestamp dl "-" = none := by
  simp [parseTimestamp]

theorem runParse_append (xs ys : List LineInput) (st : String) :
    runParse (xs ++ ys) st =
      ((runParse xs st).1 ++ (runParse ys (runParse xs st).2).1,
        (runParse ys (runParse xs st).2).2) := by
  induction xs generalizing st with
  | nil => simp [runParse]
  | cons x xs ih => simp [runParse, ih]

theorem runParse_noMatch (ls : List String) (st : String)
    (h : ∀ s ∈ ls, lineParsedTs s = none) :
    runParse (ls.map .str) st =
      (ls.map (fun s => { timestamp := st, message := s }), st) := by
  induction ls with
  | nil => simp [runParse]
  | cons s ls ih =>
    have hs : lineParsedTs s = none := h s (by simp)
    have ih' := ih (fun t ht => h t (by simp [ht]))
    simp [runParse, parseLogLine_str_eq, hs, ih']

theorem runParse_ts_provenance (ls : List String) (st : String) :
    (∀ e ∈ (runParse (ls.map .str) st).1,
        e.timestamp = st ∨ e.timestamp ∈ runMatched ls) ∧
      ((runParse (ls.map .str) st).2 = st ∨
        (runParse (ls.map .str) st).2 ∈ runMatched ls) := by
  induction ls generalizing st with
  | nil => simp [runParse, runMatched]
  | cons s ls ih =>
    have hrun : runParse ((s :: ls).map .str) st =
        ((parseLogLine (.str s) st).1 ::
            (runParse (ls.map .str) (parseLogLine (.str s) st).2).1,
          (runParse (ls.map .str) (parseLogLine (.str s) st).2).2) := by
      simp [runParse]
    cases hts : lineParsedTs s with
    | none =>
      have hp : parseLogLine (.str s) st = ({ timestamp := st, message := s }, st) := by
        rw [parseLogLine_str_eq, hts]
      have hm : runMatched (s :: ls) = runMatched ls := by
        simp [runMatched, List.filterMap_cons, hts]
      rw [hrun, hp, hm]
      refine ⟨?_, (ih st).2⟩
      intro e he
      rcases List.mem_cons.mp he with he | he
      · exact Or.inl (by simp [he])
      · exact (ih st).1 e he
    | some t =>
      have hp : parseLogLine (.str s) st = ({ timestamp := t, message := s }, t) := by
        rw [parseLogLine_str_eq, hts]
      have hm : runMatched (s :: ls) = t :: runMatched ls := by
        simp [runMatched, List.filterMap_cons, hts]
      rw [hrun, hp, hm]
      refine ⟨?_, ?_⟩
      · intro e he
        rcases List.mem_cons.mp he with he | he
        · exact Or.inr (by simp [he])
        · rcases (ih t).1 e he with h1 | h1
          · exact Or.inr (by simp [h1])
          · exact Or.inr (List.mem_cons_of_mem t h1)
      · rcases (ih t).2 with h1 | h1
        · exact Or.inr (by simp [h1])
        · exact Or.inr (List.mem_cons_of_mem t h1)

theorem runTagged_map_tag (t : FileTag) (ls : List LineInput) (st : String) :
    runTagged (ls.map (fun l => (t, l))) st =
      ((runParse ls st).1.map (fun p => (t, p)), (runParse ls st).2) := by
  induction ls generalizing st with
  | nil => simp [runTagged, runParse]
  | cons l ls ih => simp [runTagged, runParse, ih]

theorem runTagged_append (xs ys : List (FileTag × LineInput)) (st : String) :
    runTagged (xs ++ ys) st =
      ((runTagged xs st).1 ++ (runTagged ys (runTagged xs st).2).1,
        (runTagged ys (runTagged xs st).2).2) := by
  induction xs generalizing st with
  | nil => simp [runTagged]
  | cons x xs ih =>
    obtain ⟨t, l⟩ := x
    simp [runTagged, ih]

theorem projSeq_append (t : FileTag) (xs ys : List (FileTag × ParsedLogLine)) :
    projSeq t (xs ++ ys) = projSeq t xs ++ projSeq t ys := by
  simp [projSeq]

theorem projSeq_map_self (t : FileTag) (ps : List ParsedLogLine) :
    projSeq t (ps.map (fun p => (t, p))) = ps := by
  induction ps with
  | nil => rfl
  | cons p ps ih => simp [projSeq, List.filterMap_cons] at ih ⊢; exact ih

theorem projSeq_map_ne (t t' : FileTag) (h : t' ≠ t) (ps : List ParsedLogLine) :
    projSeq t (ps.map (fun p => (t', p))) = [] := by
  simp [projSeq, List.filterMap_map, h]

theorem runTagged_reset_head (t : FileTag) (calls : List LineInput) (st : String) :
    runTagged ((t, LineInput.undefIn) :: calls.map (fun l => (t, l))) st =
      ((t, ({ timestamp := "-", message := "" } : ParsedLogLine)) ::
          (runParse calls "-").1.map (fun p => (t, p)),
        (runParse calls "-").2) := by
  simp [runTagged, parseLogLine, runTagged_map_tag]

theorem tsOlder_sentinel (b : String) : tsOlder "-" b = false := by
  have h : strictTsKey "-" = none := by decide
  simp only [tsOlder, h]

theorem mem_bucketLoop (w stop : Int) :
    ∀ (n : Nat) (cur b : Int), (stop + 1 - cur).toNat = n →
      b ∈ bucketLoop w cur stop → 0 < w ∧ cur ≤ b ∧ b ≤ stop ∧ w ∣ (b - cur) := by
  intro n
  induction n using Nat.strong_induction_on with
  | _ n ih =>
    intro cur b hn hb
    rw [bucketLoop] at hb
    split at hb
    · rename_i h
      rcases List.mem_cons.mp hb with rfl | hb'
      · exact ⟨h.1, le_refl _, h.2, by simp⟩
      · have hdec : (stop + 1 - (cur + w)).toNat < n := by omega
        obtain ⟨hw, hle, hstop, hdvd⟩ := ih _ hdec (cur + w) b rfl hb'
        refine ⟨hw, by omega, hstop, ?_⟩
        obtain ⟨k, hk⟩ := hdvd
        exact ⟨k + 1, by linarith⟩
    · simp at hb

theorem bucketLoop_cover (w stop : Int) :
    ∀ (n : Nat) (cur m : Int), (stop + 1 - cur).toNat = n →
      0 < w → cur ≤ m → m ≤ stop → w ∣ (m - cur) → m ∈ bucketLoop w cur stop := by
  intro n
  induction n using Nat.strong_induction_on with
  | _ n ih =>
    intro cur m hn hw hcm hms hdvd
    rw [bucketLoop, dif_pos ⟨hw, le_trans hcm hms⟩]
    rcases eq_or_lt_of_le hcm with rfl | hlt
    · exact List.mem_cons_self _ _
    · have hge : w ≤ m - cur := Int.le_of_dvd (by omega) hdvd
      refine List.mem_cons_of_mem _
        (ih _ (by omega) (cur + w) m rfl hw (by omega) hms ?_)
      obtain ⟨k, hk⟩ := hdvd
      refine ⟨k - 1, ?_⟩
      rw [mul_sub, mul_one, ← hk]
      ring

theorem assocFind_map_empty_of_mem (bs : List Int) (m : Int) (h : m ∈ bs) :
    assocFind (bs.map (fun b => (b, []))) m = some [] := by
  induction bs with
  | nil => cases h
  | cons b bs ih =>
    simp only [List.map_cons, assocFind]
    split
    · rfl
    · rename_i hne
      rcases List.mem_cons.mp h with rfl | h'
      · exact absurd rfl hne
      · exact ih h'

theorem assocFind_map_mem (bs : List Int) (m : Int) (cs : List (String × Nat)) :
    assocFind (bs.map (fun b => (b, []))) m = some cs → m ∈ bs := by
  induction bs with
  | nil => intro h; simp [assocFind] at h
  | cons b bs ih =>
    simp only [List.map_cons, assocFind]
    split
    · rename_i he
      intro _
      exact he ▸ List.mem_cons_self _ _
    · intro h
      exact List.mem_cons_of_mem _ (ih h)

theorem assocFind_updateB (bks : TSBuckets) (k : Int) (lvl : String) (m : Int) :
    assocFind (updateB bks k lvl) m =
      if k = m then
        match assocFind bks m with
        | some cs => some (bumpLevel cs lvl)
        | none => some [(lvl, 1)]
      else assocFind bks m := by
  induction bks with
  | nil =>
    simp only [updateB, assocFind]
  | cons p bks ih =>
    obtain ⟨k', v⟩ := p
    simp only [updateB]
    by_cases hkk : k' = k
    · subst hkk
      simp only [if_pos rfl, assocFind]
      by_cases hkm : k' = m
      · simp [assocFind, hkm]
      · simp [assocFind, hkm]
    · simp only [if_neg hkk, assocFind]
      by_cases hkm : k' = m
      · have hkm' : ¬ (k = m) := fun h => hkk (by rw [hkm, h])
        simp [assocFind, hkm, hkm']
      · simp only [if_neg hkm, ih]

theorem foldl_find_untouched (w : Int) (ds : List (Int × String)) (bks : TSBuckets)
    (m : Int) (h : ∀ p ∈ ds, p.1.fdiv w * w ≠ m) :
    assocFind (ds.foldl (fun b p => updateB b (p.1.fdiv w * w) p.2) bks) m =
      assocFind bks m := by
  induction ds generalizing bks with
  | nil => rfl
  | cons p ds ih =>
    rw [List.foldl_cons, ih _ (fun q hq => h q (List.mem_cons_of_mem _ hq)),
      assocFind_updateB, if_neg (h p (List.mem_cons_self _ _))]

theorem foldl_find_isSome (w : Int) (ds : List (Int × String)) (bks : TSBuckets)
    (m : Int) (h : (assocFind bks m).isSome = true) :
    (assocFind (ds.foldl (fun b p => updateB b (p.1.fdiv w * w) p.2) bks) m).isSome
      = true := by
  induction ds generalizing bks with
  | nil => exact h
  | cons p ds ih =>
    rw [List.foldl_cons]
    refine ih _ ?_
    rw [assocFind_updateB]
    split
    · cases assocFind bks m <;> rfl
    · exact h

theorem foldl_find_key_source (w : Int) (ds : List (Int × String)) (bks : TSBuckets)
    (m : Int) :
    (assocFind (ds.foldl (fun b p => updateB b (p.1.fdiv w * w) p.2) bks) m).isSome
        = true →
      (assocFind bks m).isSome = true ∨ ∃ p ∈ ds, p.1.fdiv w * w = m := by
  induction ds generalizing bks with
  | nil => exact fun h => Or.inl h
  | cons p ds ih =>
    intro h
    rw [List.foldl_cons] at h
    rcases ih _ h with h' | h'
    · rw [assocFind_updateB] at h'
      by_cases hk : p.1.fdiv w * w = m
      · exact Or.inr ⟨p, List.mem_cons_self _ _, hk⟩
      · rw [if_neg hk] at h'
        exact Or.inl h'
    · obtain ⟨q, hq, hqe⟩ := h'
      exact Or.inr ⟨q, List.mem_cons_of_mem _ hq, hqe⟩

/-! ## Claim theorems -/

/-- C1: parsing the three scenario lines in order after a state reset yields
exactly 3 entries; the third entry's timestamp is the carried-forward
`2024-01-01 00:00:01` from the second line (the third line itself has no
timestamp match), and level classification yields INFO, ERROR, OTHER. -/
theorem c1_scenario_parse_and_levels :
    ((runParse
        [.str "2024-01-01 00:00:00 INFO start", .str "2024-01-01 00:00:01 ERROR fail",
          .str "    at com.foo.Bar(stack)"] (parseLogLine .undefIn "previous").2).1.length = 3) ∧
      ((runParse
        [.str "2024-01-01 00:00:00 INFO start", .str "2024-01-01 00:00:01 ERROR fail",
          .str "    at com.foo.Bar(stack)"] (parseLogLine .undefIn "previous").2).1.map
            (fun e => e.timestamp)
        = ["2024-01-01 00:00:00", "2024-01-01 00:00:01", "2024-01-01 00:00:01"]) ∧
      lineParsedTs "    at com.foo.Bar(stack)" = none ∧
      ((runParse
        [.str "2024-01-01 00:00:00 INFO start", .str "2024-01-01 00:00:01 ERROR fail",
          .str "    at com.foo.Bar(stack)"] (parseLogLine .undefIn "previous").2).1.map
            (fun e => classifyLevel e.message)
        = ["INFO", "ERROR", "OTHER"]) := by
  decide

/-- C6 counterexample: on an I/O failure the lines produced before the failure
are not kept with an error entry appended after them. -/
theorem c6_counterexample :
    processFileContent (.ioError ["2024-01-01 00:00:00 INFO partial"]) "app.log" ≠
      ["2024-01-01 00:00:00 INFO partial", ingestErrorLine "app.log"] := by
  decide

/-- C6 amended: on an I/O failure during ingestion the previously produced
lines are discarded and the file's content becomes exactly the one synthetic
error line naming the file. -/
theorem c6_failure_replaces_content (producedLines : List String) (name : String) :
    processFileContent (.ioError producedLines) name = [ingestErrorLine name] :=
  rfl

/-- C10: `parseLogLine undefined` sets the carried timestamp to the sentinel
`"-"` and returns an entry with timestamp `"-"` and empty message;
`parseTimestamp` on the sentinel returns none for every date library; and
every line parsed before the run's first timestamp match yields an entry whose
timestamp is the sentinel and hence resolves to no instant. -/
theorem c10_reset_and_sentinel :
    (∀ st : String, parseLogLine .undefIn st = ({ timestamp := "-", message := "" }, "-")) ∧
      (∀ dl : DateLib, parseTimestamp dl "-" = none) ∧
      (∀ (ls₁ ls₂ : List String) (dl : DateLib),
        (∀ s ∈ ls₁, lineParsedTs s = none) →
        ∀ e ∈ (runParse ((ls₁ ++ ls₂).map .str) (parseLogLine .undefIn "x").2).1.take ls₁.length,
          e.timestamp = "-" ∧ parseTimestamp dl e.timestamp = none) := by
  refine ⟨fun st => rfl, parseTimestamp_sentinel, ?_⟩
  intro ls₁ ls₂ dl h e he
  have hst : (parseLogLine .undefIn "x").2 = "-" := rfl
  rw [hst, List.map_append, runParse_append, runParse_noMatch ls₁ "-" h] at he
  rw [List.take_left' (List.length_map ls₁ _)] at he
  rcases List.mem_map.mp he with ⟨s, _, rfl⟩
  exact ⟨rfl, parseTimestamp_sentinel dl⟩

/-- C2: an entry matched by any exclude filter is not visible regardless of
the include filters and the combinator; in the OR scenario with filters
exclude DEBUG and include ERROR, a message containing DEBUG anywhere is not
visible even when ERROR also appears, and a message containing only ERROR is
visible. -/
theorem c2_exclude_precedence :
    (∀ (dl : DateLib) (re : RegexEngine) (tr : Option (Option Int × Option Int))
        (filters : List FilterItem) (filterLogic : String) (entry : ParsedLogLine)
        (f : FilterItem), f ∈ filters → f.type = "exclude" →
        matchesFilterTerm re f entry.message = true →
        entryVisible dl re tr filters filterLogic entry = false) ∧
      entryVisible ⟨fun _ => none, fun _ _ => none, fun _ => none, fun _ => 0⟩
        (fun _ => none) none
        [⟨0, "DEBUG", false, "exclude"⟩, ⟨1, "ERROR", false, "include"⟩] "OR"
        ⟨"-", "an ERROR and also DEBUG text"⟩ = false ∧
      entryVisible ⟨fun _ => none, fun _ _ => none, fun _ => none, fun _ => 0⟩
        (fun _ => none) none
        [⟨0, "DEBUG", false, "exclude"⟩, ⟨1, "ERROR", false, "include"⟩] "OR"
        ⟨"-", "only an ERROR here"⟩ = true := by
  refine ⟨?_, by decide, by decide⟩
  intro dl re tr filters filterLogic entry f hf htype hmatch
  have hmem : f ∈ filters.filter (fun g => g.type == "exclude") :=
    List.mem_filter.mpr ⟨hf, by simp [htype]⟩
  have hlen : 0 < (filters.filter (fun g => g.type == "exclude")).length :=
    List.length_pos_of_mem hmem
  have hany : (filters.filter (fun g => g.type == "exclude")).any
      (fun g => matchesFilterTerm re g entry.message) = true :=
    List.any_eq_true.mpr ⟨f, hmem, hmatch⟩
  cases htr : timeRangeOk dl tr entry with
  | false => simp [entryVisible, htr]
  | true => simp [entryVisible, htr, hlen, hany]

/-- Witness for C2 at the scenario filter set. -/
theorem c2_witness :
    entryVisible ⟨fun _ => none, fun _ _ => none, fun _ => none, fun _ => 0⟩
      (fun _ => none) none
      [⟨0, "DEBUG", false, "exclude"⟩, ⟨1, "ERROR", false, "include"⟩] "AND"
      ⟨"-", "DEBUG: an ERROR occurred"⟩ = false :=
  c2_exclude_precedence.1 _ _ none _ "AND" _ ⟨0, "DEBUG", false, "exclude"⟩
    (by decide) rfl (by decide)

/-- C8: a regex filter whose pattern does not compile never raises and acts
as a non-match: it matches no message, an invalid-regex include filter makes
no entry visible, and an invalid-regex exclude filter excludes nothing. -/
theorem c8_invalid_regex_non_match (re : RegexEngine) (f : FilterItem)
    (hreg : f.isRegex = true) (hre : re f.term = none) :
    (∀ message : String, matchesFilterTerm re f message = false) ∧
      (∀ (dl : DateLib) (logic : String) (entry : ParsedLogLine),
        entryVisible dl re none [{ f with type := "include" }] logic entry = false) ∧
      (∀ (dl : DateLib) (logic : String) (entry : ParsedLogLine),
        entryVisible dl re none [{ f with type := "exclude" }] logic entry = true) := by
  have hmatch : ∀ (g : FilterItem), g.isRegex = true → g.term = f.term →
      ∀ m : String, matchesFilterTerm re g m = false := by
    intro g hg hterm m
    simp [matchesFilterTerm, hg, hterm, hre]
  refine ⟨hmatch f hreg rfl, ?_, ?_⟩
  · intro dl logic entry
    have hg : ({ f with type := "include" } : FilterItem).isRegex = true := hreg
    simp only [entryVisible, timeRangeOk]
    cases hl : logic == "AND" <;>
      simp [hl, List.filter, hmatch _ hg rfl]
  · intro dl logic entry
    have hg := hmatch { f with type := "exclude" } hreg rfl
    simp [entryVisible, timeRangeOk, List.filter, hg]

/-- Witness for C8 at the non-compiling pattern `(`. -/
theorem c8_witness :
    matchesFilterTerm (fun _ => none) ⟨0, "(", true, "include"⟩ "an ERROR" = false ∧
      entryVisible ⟨fun _ => none, fun _ _ => none, fun _ => none, fun _ => 0⟩
        (fun _ => none) none [⟨0, "(", true, "include"⟩] "OR" ⟨"-", "x"⟩ = false ∧
      entryVisible ⟨fun _ => none, fun _ _ => none, fun _ => none, fun _ => 0⟩
        (fun _ => none) none [⟨0, "(", true, "exclude"⟩] "OR" ⟨"-", "x"⟩ = true :=
  ⟨(c8_invalid_regex_non_match (fun _ => none) ⟨0, "(", true, "include"⟩ rfl rfl).1
      "an ERROR",
    (c8_invalid_regex_non_match (fun _ => none) ⟨0, "(", true, "include"⟩ rfl rfl).2.1
      _ "OR" ⟨"-", "x"⟩,
    (c8_invalid_regex_non_match (fun _ => none) ⟨0, "(", true, "exclude"⟩ rfl rfl).2.2
      _ "OR" ⟨"-", "x"⟩⟩

/-- C7 counterexample: for the plain filter term ERROR, `getFilterStats` does
not count case-insensitive substring containment: the message `XERRORX`
contains `ERROR` but is not counted. -/
theorem c7_counterexample :
    getFilterStats (fun _ => none) ⟨0, "ERROR", false, "include"⟩ "-" ["XERRORX"] = 0 ∧
      specMatchCount ⟨0, "ERROR", false, "include"⟩ ["XERRORX"] = 1 := by
  decide

/-- C7 amended: for every plain filter whose uppercased term is not one of the
level tokens, the match count equals the exact number of entries whose message
contains the term as a case-insensitive substring, over the complete entry
set; level-token terms instead use delimited level matching. -/
theorem c7_plain_match_count (re : RegexEngine) (f : FilterItem) (st : String)
    (entries : List String) (hreg : f.isRegex = false)
    (hlvl : AF_LEVEL_TERMS.contains (upperStr f.term) = false) :
    getFilterStats re f st entries = specMatchCount f entries := by
  have hlvl' : upperStr f.term ∉ AF_LEVEL_TERMS := by simpa using hlvl
  have hpred : ∀ e : String, filterStatMatches re f st e =
      charsIncludes (lowerStr f.term).data (lowerStr e).data := by
    intro e
    simp [filterStatMatches, hreg, hlvl', parseLogLine_str_message]
  cases entries with
  | nil => rfl
  | cons e es =>
    simp only [getFilterStats, specMatchCount]
    rw [if_neg (by simp)]
    congr 1
    exact List.filter_congr (fun x _ => hpred x)

/-- Witness for C7 at the non-level term `fail`. -/
theorem c7_witness :
    getFilterStats (fun _ => none) ⟨0, "fail", false, "include"⟩ "-"
        ["a FAIL here", "nothing", "more failures"] =
      specMatchCount ⟨0, "fail", false, "include"⟩
        ["a FAIL here", "nothing", "more failures"] ∧
      specMatchCount ⟨0, "fail", false, "include"⟩
        ["a FAIL here", "nothing", "more failures"] = 2 :=
  ⟨c7_plain_match_count (fun _ => none) ⟨0, "fail", false, "include"⟩ "-"
      ["a FAIL here", "nothing", "more failures"] rfl (by decide),
    by decide⟩

/-- C3: every bucket start in the aggregator's output is an exact multiple of
the bucket width measured from the epoch (so any two aggregations with the
same width have identically aligned edges, whatever their entry sets), and
every width-multiple between `range.start - w` and `range.end + w` is
materialized, with all-zero counts when no used entry falls into it. -/
theorem c3_bucket_alignment_and_coverage (w start stop : Int)
    (data : List (Int × String)) (zoom : Bool) (hw : 0 < w) :
    (∀ m : Int,
        (assocFind (timeSeriesBuckets w start stop data zoom) m).isSome = true →
        w ∣ m) ∧
      (∀ m : Int, w ∣ m → start - w ≤ m → m ≤ stop + w →
        ∃ cs, assocFind (timeSeriesBuckets w start stop data zoom) m = some cs ∧
          ((∀ p ∈ (if zoom then data.filter
                (fun p => decide (start ≤ p.1) && decide (p.1 ≤ stop)) else data),
              p.1.fdiv w * w ≠ m) → cs = [])) := by
  simp only [timeSeriesBuckets]
  constructor
  · intro m hm
    rcases foldl_find_key_source w _ _ m hm with h | ⟨p, _, hpe⟩
    · obtain ⟨cs, hcs⟩ := Option.isSome_iff_exists.mp h
      have hmem : m ∈ bucketLoop w (((start - w).fdiv w) * w) (stop + w) :=
        assocFind_map_mem _ _ _ hcs
      obtain ⟨_, _, _, hdvd⟩ := mem_bucketLoop w (stop + w) _ _ m rfl hmem
      have hcur : w ∣ ((start - w).fdiv w) * w := dvd_mul_left w _
      have := dvd_add hdvd hcur
      rwa [sub_add_cancel] at this
    · exact hpe ▸ dvd_mul_left w _
  · intro m hdvd hlo hhi
    have hcur0 : ((start - w).fdiv w) * w ≤ start - w := by
      have h := Int.ediv_mul_le (start - w) (ne_of_gt hw)
      rwa [← Int.fdiv_eq_ediv _ (le_of_lt hw)] at h
    have hdvd0 : w ∣ (m - ((start - w).fdiv w) * w) :=
      dvd_sub hdvd (dvd_mul_left w _)
    have hmem : m ∈ bucketLoop w (((start - w).fdiv w) * w) (stop + w) :=
      bucketLoop_cover w (stop + w) _ _ m rfl hw (by omega) (by omega) hdvd0
    have hinit : assocFind (initBuckets w start stop) m = some [] :=
      assocFind_map_empty_of_mem _ _ hmem
    have hsome := foldl_find_isSome w
      (if zoom then data.filter (fun p => decide (start ≤ p.1) && decide (p.1 ≤ stop))
        else data) (initBuckets w start stop) m (by rw [hinit]; rfl)
    obtain ⟨cs, hcs⟩ := Option.isSome_iff_exists.mp hsome
    refine ⟨cs, hcs, ?_⟩
    intro hno
    rw [foldl_find_untouched w _ _ m hno, hinit] at hcs
    exact (Option.some.inj hcs).symm

/-- Witness for C3 at width 5000 over the range 0..10000 with one in-range
entry. -/
theorem c3_witness :
    ((0 : Int) < 5000) ∧
      ((5000 : Int) ∣ 10000) ∧
      (∃ cs, assocFind
          (timeSeriesBuckets 5000 0 10000 [(7200, "INFO")] false) 10000 = some cs ∧
        ((∀ p ∈ (if false then
              ([(7200, "INFO")] : List (Int × String)).filter
                (fun p => decide ((0:Int) ≤ p.1) && decide (p.1 ≤ 10000))
            else [(7200, "INFO")]), p.1.fdiv 5000 * 5000 ≠ 10000) → cs = [])) :=
  ⟨by norm_num, by norm_num,
    (c3_bucket_alignment_and_coverage 5000 0 10000 [(7200, "INFO")] false
        (by norm_num)).2 10000 (by norm_num) (by norm_num) (by norm_num)⟩

/-- C4 counterexample: a 30-second span (at most 1 minute) makes
`calculateOptimalBucketSize` return 30s, not the claimed 5s. -/
theorem c4_counterexample :
    (30000 : ℚ) / (1000 * 60) ≤ 1 ∧ calculateOptimalBucketSize 30000 = "30s" ∧
      calculateOptimalBucketSize 30000 ≠ "5s" := by
  have h : calculateOptimalBucketSize 30000 = "30s" := by
    norm_num [calculateOptimalBucketSize]
  exact ⟨by norm_num, h, by rw [h]; decide⟩

/-- C4 amended: the ingestion-time selection forces 5s for spans of at most
1 minute and 30s for spans of at most 60 minutes, and otherwise snaps
`ceil(spanMinutes / 120)` up the fixed ladder; `calculateOptimalBucketSize`
agrees except that it forces 30s for every span of at most 60 minutes,
including spans of at most 1 minute; a 45-minute span gives 30s and a 3-hour
span gives 5m. -/
theorem c4_bucket_width_selection :
    (∀ d : ℚ, d / (1000 * 60) ≤ 1 → homeBucketSize d = "5s") ∧
      (∀ d : ℚ, 1 < d / (1000 * 60) → d / (1000 * 60) ≤ 60 →
        homeBucketSize d = "30s") ∧
      (∀ d : ℚ, d / (1000 * 60) ≤ 60 → calculateOptimalBucketSize d = "30s") ∧
      (∀ d : ℚ, 60 < d / (1000 * 60) →
        homeBucketSize d = specSnapLadder ((⌈d / (1000 * 60) / 120⌉ : ℤ) : ℚ) ∧
        calculateOptimalBucketSize d = homeBucketSize d) ∧
      homeBucketSize 2700000 = "30s" ∧ calculateOptimalBucketSize 2700000 = "30s" ∧
      homeBucketSize 10800000 = "5m" ∧ calculateOptimalBucketSize 10800000 = "5m" := by
  have hceil : ⌈(3 : ℚ) / 2⌉ = 2 := by
    rw [Int.ceil_eq_iff]
    norm_num
  refine ⟨?_, ?_, ?_, ?_, by norm_num [homeBucketSize],
    by norm_num [calculateOptimalBucketSize], by norm_num [homeBucketSize, hceil],
    by norm_num [calculateOptimalBucketSize, hceil]⟩
  · intro d h
    simp only [homeBucketSize]
    rw [if_pos h]
  · intro d h1 h2
    simp only [homeBucketSize]
    rw [if_neg (not_le.mpr h1), if_pos h2]
  · intro d h
    simp only [calculateOptimalBucketSize]
    rw [if_pos h]
  · intro d h60
    have hd1 : ¬ (d / (1000 * 60) ≤ 1) := by linarith
    have hd60 : ¬ (d / (1000 * 60) ≤ 60) := not_le.mpr h60
    have hcpos : (0 : ℚ) < d / (1000 * 60) / 120 := by
      have h0 : (0 : ℚ) < d / (1000 * 60) := by linarith
      exact div_pos h0 (by norm_num)
    have hc1 : (1 : ℤ) ≤ ⌈d / (1000 * 60) / 120⌉ := by
      have := Int.ceil_pos.mpr hcpos
      omega
    have hcq : (1 : ℚ) ≤ ((⌈d / (1000 * 60) / 120⌉ : ℤ) : ℚ) := by exact_mod_cast hc1
    have hmax : max (1 : ℚ) ((⌈d / (1000 * 60) / 120⌉ : ℤ) : ℚ) =
        ((⌈d / (1000 * 60) / 120⌉ : ℤ) : ℚ) := max_eq_right hcq
    constructor
    · simp only [homeBucketSize, specSnapLadder]
      rw [if_neg hd1, if_neg hd60, hmax]
      rw [if_neg (show ¬ ((⌈d / (1000 * 60) / 120⌉ : ℤ) : ℚ) ≤ 0.08 by
            intro h; norm_num at h; linarith),
        if_neg (show ¬ ((⌈d / (1000 * 60) / 120⌉ : ℤ) : ℚ) ≤ 0.17 by
            intro h; norm_num at h; linarith),
        if_neg (show ¬ ((⌈d / (1000 * 60) / 120⌉ : ℤ) : ℚ) ≤ 0.5 by
            intro h; norm_num at h; linarith),
        if_neg (show ¬ ((⌈d / (1000 * 60) / 120⌉ : ℤ) : ℚ) ≤ 1 / 12 by
            intro h; norm_num at h; linarith),
        if_neg (show ¬ ((⌈d / (1000 * 60) / 120⌉ : ℤ) : ℚ) ≤ 1 / 6 by
            intro h; norm_num at h; linarith),
        if_neg (show ¬ ((⌈d / (1000 * 60) / 120⌉ : ℤ) : ℚ) ≤ 1 / 2 by
            intro h; norm_num at h; linarith)]
    · simp only [homeBucketSize, calculateOptimalBucketSize]
      rw [if_neg hd1, if_neg hd60]

/-- Witness for C4 at 0.5-, 45-, 47- and 180-minute spans. -/
theorem c4_witness :
    homeBucketSize 30000 = "5s" ∧ calculateOptimalBucketSize 2700000 = "30s" ∧
      homeBucketSize 2820000 = "30s" ∧
      (homeBucketSize 10800000 =
          specSnapLadder ((⌈(10800000 : ℚ) / (1000 * 60) / 120⌉ : ℤ) : ℚ) ∧
        calculateOptimalBucketSize 10800000 = homeBucketSize 10800000) :=
  ⟨c4_bucket_width_selection.1 30000 (by norm_num),
    c4_bucket_width_selection.2.2.1 2700000 (by norm_num),
    c4_bucket_width_selection.2.1 2820000 (by norm_num) (by norm_num),
    c4_bucket_width_selection.2.2.2.1 10800000 (by norm_num)⟩

/-- C5 counterexample: with the shared module-level state, interleaving the
per-line parse calls of two files changes one file's timestamps: file B's
stack-trace line inherits file A's timestamp, while B parsed alone keeps the
sentinel. -/
theorem c5_counterexample :
    (projSeq .fileB (runTagged
        [(.fileA, .undefIn), (.fileB, .undefIn),
          (.fileA, .str "2024-01-01 00:00:00 INFO start"),
          (.fileB, .str "    at com.foo.Bar(stack)")] "-").1).map (fun e => e.timestamp)
      = ["-", "2024-01-01 00:00:00"] ∧
    ((runParse [.undefIn, .str "    at com.foo.Bar(stack)"] "-").1).map
        (fun e => e.timestamp) = ["-", "-"] ∧
    (projSeq .fileB (runTagged
        [(.fileA, .undefIn), (.fileB, .undefIn),
          (.fileA, .str "2024-01-01 00:00:00 INFO start"),
          (.fileB, .str "    at com.foo.Bar(stack)")] "-").1).map (fun e => e.timestamp)
      ≠ ((runParse [.undefIn, .str "    at com.foo.Bar(stack)"] "-").1).map
        (fun e => e.timestamp) := by
  decide

/-- C5 amended: the carried-timestamp state is one module-level variable
shared by every `parseLogLine` caller, so interleaved ingestion runs can leak
timestamps across files; isolation holds only for non-interleaved runs: a
file's block of calls, begun by the `undefined` reset, yields the same
entries as parsing that file alone, whatever state earlier calls left. -/
theorem c5_sequential_isolation (aCalls bCalls : List LineInput) (st : String) :
    projSeq .fileB (runTagged
        (aCalls.map (fun l => (FileTag.fileA, l)) ++
          (FileTag.fileB, LineInput.undefIn) ::
            bCalls.map (fun l => (FileTag.fileB, l))) st).1
      = (runParse (.undefIn :: bCalls) "-").1 ∧
    runParse (.undefIn :: bCalls) st = runParse (.undefIn :: bCalls) "-" := by
  have hreset : ∀ s : String, runParse (.undefIn :: bCalls) s =
      (({ timestamp := "-", message := "" } : ParsedLogLine) ::
          (runParse bCalls "-").1, (runParse bCalls "-").2) := by
    intro s
    simp [runParse, parseLogLine]
  constructor
  · rw [runTagged_append, runTagged_map_tag, runTagged_reset_head, projSeq_append,
      projSeq_map_ne FileTag.fileB FileTag.fileA (by decide)]
    have hproj := projSeq_map_self FileTag.fileB (runParse bCalls "-").1
    simp only [projSeq, List.filterMap_cons] at hproj ⊢
    simp only [hproj, hreset "-"]
    simp
  · rw [hreset st, hreset "-"]

/-- C9 counterexample: with out-of-order timestamps in one run, a carried
timestamp is strictly older than the run's first successfully parsed
timestamp. -/
theorem c9_counterexample :
    ((runParse [.str "2024-01-01 00:00:01 INFO a", .str "2020-01-01 00:00:00 INFO b",
        .str "    at com.foo.Bar(stack)"] "-").1.map (fun e => e.timestamp))
      = ["2024-01-01 00:00:01", "2020-01-01 00:00:00", "2020-01-01 00:00:00"] ∧
    lineParsedTs "    at com.foo.Bar(stack)" = none ∧
    (runMatched ["2024-01-01 00:00:01 INFO a", "2020-01-01 00:00:00 INFO b",
        "    at com.foo.Bar(stack)"]).head? = some "2024-01-01 00:00:01" ∧
    tsOlder "2020-01-01 00:00:00" "2024-01-01 00:00:01" = true := by
  decide

/-- C9 amended: after a reset, every entry's timestamp is either the sentinel
or a timestamp parsed from its own or an earlier line of the run; hence when
no parsed timestamp of the run is older than the run's first parsed timestamp
(a chronologically ordered file), no entry's timestamp is older than the
first parsed timestamp. With out-of-order timestamps the original claim
fails. -/
theorem c9_carried_timestamp_provenance (ls : List String) :
    (∀ e ∈ (runParse (ls.map .str) "-").1,
        e.timestamp = "-" ∨ e.timestamp ∈ runMatched ls) ∧
      (∀ fst : String, (runMatched ls).head? = some fst →
        (∀ t ∈ runMatched ls, tsOlder t fst = false) →
        ∀ e ∈ (runParse (ls.map .str) "-").1, tsOlder e.timestamp fst = false) := by
  refine ⟨(runParse_ts_provenance ls "-").1, ?_⟩
  intro fst hfst hmono e he
  rcases (runParse_ts_provenance ls "-").1 e he with h | h
  · rw [h]
    exact tsOlder_sentinel fst
  · exact hmono _ h

/-- Witness for C9 on a chronologically ordered two-line run. -/
theorem c9_witness :
    tsOlder
      ({ timestamp := "2024-01-01 00:00:01", message := "    at com.foo.Bar(x)" } :
        ParsedLogLine).timestamp
      "2024-01-01 00:00:01" = false :=
  (c9_carried_timestamp_provenance
      ["2024-01-01 00:00:01 INFO a", "    at com.foo.Bar(x)"]).2
    "2024-01-01 00:00:01" (by decide) (by decide) _ (by decide)

/-- Witness for C10 at a concrete stack-trace line. -/
theorem c10_witness :
    ({ timestamp := "-", message := "    at com.foo.Bar(stack)" } : ParsedLogLine).timestamp
        = "-" ∧
      parseTimestamp ⟨fun _ => none, fun _ _ => none, fun _ => none, fun _ => 0⟩
        ({ timestamp := "-", message := "    at com.foo.Bar(stack)" } :
          ParsedLogLine).timestamp = none :=
  c10_reset_and_sentinel.2.2 ["    at com.foo.Bar(stack)"]
    ["2024-01-01 00:00:00 INFO ok"] _ (by decide) _ (by decide)

end LogVision
